import Mathlib

/-!
Shallow embedding of the endaq-python-batch core (src/endaq/batch/calc.py):
the peak-window extraction, the per-recording formatters, the
cross-recording aggregation, and the GetDataBuilder configuration stage.

Numeric signal values are modelled as rationals; builder parameters are
modelled as reals so that the octave-derived PSD bin width (which uses
real exponentials) can be expressed exactly.  Raised Python exceptions are
modelled as Option.none / Except.error results.
-/

namespace EndaqBatch

/-! ### Python slice semantics

numpy basic slicing `xs[a:b]` converts a negative bound by adding the
length, then clamps into [0, len].  Slice assignment `buf[a:b] = src`
requires the source length to equal the slice length, else it raises
(modelled by returning none). -/

/-- Convert one Python slice bound into an absolute index clamped to [0, L]. -/
def pyIdx (L : Nat) (i : Int) : Nat :=
  let j : Int := if i < 0 then i + L else i
  min j.toNat L

/-- Python slice read xs[a:b] (step 1). -/
def pyGetSlice (xs : List α) (a b : Int) : List α :=
  let s := pyIdx xs.length a
  let e := pyIdx xs.length b
  (xs.drop s).take (e - s)

/-- Python slice assignment buf[a:b] = src; none models the numpy
broadcast error when the lengths differ. -/
def pySetSlice (buf : List α) (a b : Int) (src : List α) : Option (List α) :=
  let s := pyIdx buf.length a
  let e := pyIdx buf.length b
  if src.length = e - s then some (buf.take s ++ src ++ buf.drop (s + (e - s)))
  else none

/-! ### np.argmax of the absolute value

np.argmax returns the first index attaining the maximum. -/

/-- Loop of argmaxAbs: best value seen, its index, index of the head of l. -/
def argmaxAbsGo (best : ℚ) (bi i : Nat) : List ℚ → Nat
  | [] => bi
  | y :: ys => if |y| > best then argmaxAbsGo |y| i (i + 1) ys else argmaxAbsGo best bi (i + 1) ys

/-- First index of the maximum absolute value (np.argmax (np.abs xs)). -/
def argmaxAbs : List ℚ → Nat
  | [] => 0
  | x :: xs => argmaxAbsGo |x| 0 1 xs

/-! ### Peak-window extraction (calc.py, _make_peak_windows)

For one channel: locate the peak, then copy
data[i_max_neg - margin : i_max + margin + 1] into a (2m+1)-row buffer
prefilled with the NaN sentinel (modelled as none) at
buf[-margin - 1 - i_max : margin - i_max_neg]. -/

/-- One channel of the peak-window buffer of _make_peak_windows. -/
def peakWindowChannel (margin_len : Nat) (xs : List ℚ) : Option (List (Option ℚ)) :=
  let n := xs.length
  let p := argmaxAbs xs
  let pNeg : Int := (p : Int) - (n : Int)
  let buf : List (Option ℚ) := List.replicate (2 * margin_len + 1) none
  let src := pyGetSlice xs (pNeg - margin_len) ((p : Int) + margin_len + 1)
  pySetSlice buf (-(margin_len : Int) - 1 - (p : Int)) ((margin_len : Int) - pNeg) (src.map some)

/-! ### Analyzer facade (external collaborator contract)

The Analyzer class (endaq/batch/analyzer.py) is an external collaborator
of calc.py: it exposes precomputed derived signals.  We model it as plain
data.  Acceleration-derived scalar metrics are series of (axis, optional
value): a missing value models a NaN entry, which pandas stack drops. -/

/-- One recorder channel: only the axis names are consumed by calc.py. -/
structure Channel where
  axis_names : List String
deriving DecidableEq

/-- A named scalar-metric series: (axis label, optional value) pairs. -/
abbrev MetricSeries := List (String × Option ℚ)

/-- Data model of the Analyzer facade consumed by the formatters. -/
structure Analyzer where
  channels : List (String × Channel)
  accelerationData : List (List ℚ)
  accelerationResultant : List ℚ
  accelerationFs : ℚ
  times : List Int
  firstTime : Int
  MPS2_TO_G : ℚ
  MPS_TO_MMPS : ℚ
  MPS_TO_UMPS : ℚ
  psdFreqs : List ℚ
  psdRows : List (List ℚ)
  pvssFreqs : List ℚ
  pvssRows : List (List ℚ)
  vcFreqs : List ℚ
  vcRows : List (List ℚ)
  accRMSFull : MetricSeries
  velRMSFull : MetricSeries
  disRMSFull : MetricSeries
  accPeakFull : MetricSeries
  pseudoVelPeakFull : MetricSeries
  gpsLocFull : MetricSeries
  gpsSpeedFull : MetricSeries
  gyroRMSFull : MetricSeries
  micRMSFull : MetricSeries
  tempFull : MetricSeries
  pressFull : MetricSeries
deriving DecidableEq

/-! ### Formatters (calc.py, _make_psd / _make_pvss / _make_vc_curves /
_make_metrics / _make_peak_windows)

The octave rebinning (utils.calc.psd.to_octave) and the Euclidean norm
(utils.calc.stats.L2_norm) are external capabilities and are passed in as
function parameters.  Long-form tables are lists of (index, value). -/

/-- Python zip(*rows): transpose truncated to the shortest row. -/
def transposePy : List (List α) → List (List α)
  | [] => []
  | r :: rs =>
    let n := rs.foldl (fun m row => min m row.length) r.length
    (List.range n).map (fun i => (r :: rs).filterMap (fun row => row[i]?))

/-- Stack a (axis-major) value matrix against axis and frequency labels
into long form indexed by (axis, frequency), axis level outermost. -/
def stackByAxis (axes : List String) (freqs : List ℚ) (rows : List (List ℚ)) :
    List ((String × ℚ) × ℚ) :=
  (axes.zip rows).flatMap (fun p => (freqs.zip p.2).map (fun q => ((p.1, q.1), q.2)))

/-- _make_psd: none when no accelerometer channel; otherwise the PSD is
optionally rebinned to octaves, scaled to g^2/Hz, a Resultant row equal
to the per-frequency sum over axes is appended, and the table is stacked
by (axis, frequency). -/
def make_psd (toOctave : List ℚ → List (List ℚ) → ℚ → ℚ → List ℚ × List (List ℚ))
    (a : Analyzer) (fstart : Option ℚ) (bins_per_octave : Option ℚ) :
    Option (List ((String × ℚ) × ℚ)) :=
  match a.channels.lookup "acc" with
  | none => none
  | some accel_ch =>
    let fp := match bins_per_octave with
      | some b => toOctave a.psdFreqs a.psdRows (fstart.getD 1) b
      | none => (a.psdFreqs, a.psdRows)
    let scaled := fp.2.map (fun row => row.map (fun x => x * a.MPS2_TO_G ^ 2))
    let resultant := (transposePy scaled).map (fun col => col.sum)
    some (stackByAxis (accel_ch.axis_names ++ ["Resultant"]) fp.1 (scaled ++ [resultant]))

/-- _make_pvss: none when no accelerometer channel; otherwise scaled to
mm/s with a Resultant row given by the external L2 norm per frequency. -/
def make_pvss (l2norm : List ℚ → ℚ) (a : Analyzer) :
    Option (List ((String × ℚ) × ℚ)) :=
  match a.channels.lookup "acc" with
  | none => none
  | some accel_ch =>
    let scaled := a.pvssRows.map (fun row => row.map (fun x => x * a.MPS_TO_MMPS))
    let resultant := (transposePy scaled).map l2norm
    some (stackByAxis (accel_ch.axis_names ++ ["Resultant"]) a.pvssFreqs (scaled ++ [resultant]))

/-- _make_vc_curves: none when no accelerometer channel; otherwise scaled
to um/s with a Resultant row given by the external L2 norm per frequency. -/
def make_vc_curves (l2norm : List ℚ → ℚ) (a : Analyzer) :
    Option (List ((String × ℚ) × ℚ)) :=
  match a.channels.lookup "acc" with
  | none => none
  | some accel_ch =>
    let scaled := a.vcRows.map (fun row => row.map (fun x => x * a.MPS_TO_UMPS))
    let resultant := (transposePy scaled).map l2norm
    some (stackByAxis (accel_ch.axis_names ++ ["Resultant"]) a.vcFreqs (scaled ++ [resultant]))

/-- The fixed ordered list of metric rows stacked by _make_metrics,
labelled by the Analyzer attribute providing each series. -/
def metricsRows (a : Analyzer) : List (String × MetricSeries) :=
  [("accRMSFull", a.accRMSFull),
   ("velRMSFull", a.velRMSFull),
   ("disRMSFull", a.disRMSFull),
   ("accPeakFull", a.accPeakFull),
   ("pseudoVelPeakFull", a.pseudoVelPeakFull),
   ("gpsLocFull", a.gpsLocFull),
   ("gpsSpeedFull", a.gpsSpeedFull),
   ("gyroRMSFull", a.gyroRMSFull),
   ("micRMSFull", a.micRMSFull),
   ("tempFull", a.tempFull),
   ("pressFull", a.pressFull)]

/-- The five calculation rows derived from the acceleration channel. -/
def accelDerivedNames : List String :=
  ["accRMSFull", "velRMSFull", "disRMSFull", "accPeakFull", "pseudoVelPeakFull"]

/-- _make_metrics: stack the metric rows into long form indexed by
(calculation, axis); missing (NaN) entries are dropped by stack. -/
def make_metrics (a : Analyzer) : List ((String × String) × ℚ) :=
  (metricsRows a).flatMap (fun p =>
    p.2.filterMap (fun q => q.2.map (fun v => ((p.1, q.1), v))))

/-- Modelled from the spec: the Analyzer facade (endaq/batch/analyzer.py,
absent from src/) returns missing values for every acceleration-derived
scalar metric when the recording has no usable acceleration channel. -/
def accelMetricsAbsent (a : Analyzer) : Prop :=
  (∀ q ∈ a.accRMSFull, q.2 = none) ∧ (∀ q ∈ a.velRMSFull, q.2 = none) ∧
  (∀ q ∈ a.disRMSFull, q.2 = none) ∧ (∀ q ∈ a.accPeakFull, q.2 = none) ∧
  (∀ q ∈ a.pseudoVelPeakFull, q.2 = none)

instance (a : Analyzer) : Decidable (accelMetricsAbsent a) := by
  unfold accelMetricsAbsent; infer_instance

/-- One column of the peak-window table: an axis, the timestamp of the
peak of that axis, and the (2m+1)-row window of values about that peak. -/
structure PeakWindowCol where
  axis : String
  peakTime : Option Int
  window : Option (List (Option ℚ))
deriving DecidableEq

/-- The peak-window table: row index of elapsed-time offsets, and one
column per axis (including the synthesized Resultant). -/
structure PeakWindowTable where
  offsets : List ℚ
  cols : List PeakWindowCol
deriving DecidableEq

/-- The inclusive integer range a, a+1, ..., b (pd.RangeIndex a (b+1)). -/
def intRangeIncl (a b : Int) : List Int :=
  (List.range (b + 1 - a).toNat).map (fun i => a + Int.ofNat i)

/-- _make_peak_windows: none when no accelerometer channel; otherwise the
axis channels plus the resultant are scaled to g, each channel is windowed
about its own peak (peakWindowChannel), each column is labelled by the
timestamp of its own peak relative to the session start, and the rows are
indexed by signed sample offsets -m ... m scaled by the sampling step. -/
def make_peak_windows (a : Analyzer) (margin_len : Nat) : Option PeakWindowTable :=
  match a.channels.lookup "acc" with
  | none => none
  | some accel_ch =>
    let data := (a.accelerationData ++ [a.accelerationResultant]).map
      (fun row => row.map (fun x => a.MPS2_TO_G * x))
    let t := a.times.map (fun x => x - a.firstTime)
    let dt : ℚ := 1 / a.accelerationFs
    some
      { offsets := (intRangeIncl (-(margin_len : Int)) margin_len).map
          (fun o : Int => dt * (o : ℚ)),
        cols := ((accel_ch.axis_names ++ ["Resultant"]).zip data).map (fun p =>
          { axis := p.1,
            peakTime := t[argmaxAbs p.2]?,
            window := peakWindowChannel margin_len p.2 }) }

/-! ### Aggregation (calc.py, GetDataBuilder.aggregate_data)

Per-recording extraction (idelib + Analyzer) is external; RecordingData
models the dict returned by GetDataBuilder._get_data: a "meta" entry
followed by one optional long-form table per queued kind, in queue order.
Cell values are tagged so that serial numbers, timestamps and numbers can
share one table type.  The pandas unstack of the meta table followed by
.loc lookups is modelled by keyed lookup in the concatenated meta rows. -/

/-- A value cell of an aggregated table. -/
inductive Cell where
  | str (s : String)
  | num (q : ℚ)
  | time (t : Int)
deriving DecidableEq

/-- A kind-specific row index, rendered as a list of labels. -/
abbrev Idx := List String

/-- One entry of a per-recording long-form series. -/
abbrev SRow := Idx × Cell

/-- The output of _get_data for one recording: its metadata and one
optional table per queued kind, in queue order. -/
structure RecordingData where
  serial : String
  start : Int
  kinds : List (Option (List SRow))
deriving DecidableEq

/-- _make_meta: the two-entry metadata series of one recording. -/
def metaSeries (r : RecordingData) : List SRow :=
  [(["serial number"], Cell.str r.serial), (["start time"], Cell.time r.start)]

/-- The dict values of _get_data: the meta series first, then the queued
kinds in queue order. -/
def getDataValues (r : RecordingData) : List (Option (List SRow)) :=
  some (metaSeries r) :: r.kinds

/-- pd.concat(series_list, keys=filenames): pairs each table with its
recording identifier, silently dropping identifiers whose entry is none;
yields none (concat never runs) unless the list is non-empty and some
entry is present, mirroring the guard in aggregate_data. -/
def aggregateColumn (fids : List String) (col : List (Option (List SRow))) :
    Option (List (String × SRow)) :=
  if col ≠ [] ∧ col.any Option.isSome then
    some (((fids.zip col).filterMap (fun p => p.2.map (fun rows => (p.1, rows)))).flatMap
      (fun p => p.2.map (fun row => (p.1, row))))
  else none

/-- One row of an aggregated tidy table after the metadata join. -/
structure AggRow where
  filename : String
  index : Idx
  value : Cell
  serial : Option Cell
  start : Option Cell
deriving DecidableEq

/-- meta.loc[fid, col] on the unstacked metadata table, modelled as keyed
lookup in the concatenated metadata rows. -/
def metaLoc (metaRows : List (String × SRow)) (fid : String) (col : String) : Option Cell :=
  (metaRows.find? (fun m => m.1 == fid && m.2.1 == [col])).map (fun m => m.2.2)

/-- reformat: melt one aggregated kind into a tidy table and left-join the
serial number and start time of each row from the metadata table. -/
def reformat (metaRows : List (String × SRow)) (t : Option (List (String × SRow))) :
    Option (List AggRow) :=
  t.map (fun rows => rows.map (fun p =>
    { filename := p.1, index := p.2.1, value := p.2.2,
      serial := metaLoc metaRows p.1 "serial number",
      start := metaLoc metaRows p.1 "start time" }))

/-- One value of the OutputStruct dataframes dict. -/
inductive DFrame where
  | metaTable (rows : List (String × SRow))
  | kindTable (rows : Option (List AggRow))
deriving DecidableEq

/-- The ResultPackage: the dataframes dict as an ordered association list. -/
structure OutputStruct where
  dataframes : List (String × DFrame)
deriving DecidableEq

/-- GetDataBuilder.aggregate_data: transpose the per-recording outputs by
kind (zip), unpack meta and the remaining kinds (none models the raised
ValueError when there is nothing to unpack), aggregate each kind keyed by
recording identifier, and package meta first followed by the queued kinds
in queue order. -/
def aggregate_data (queue : List String) (files : List (String × RecordingData)) :
    Option OutputStruct :=
  let fids := files.map Prod.fst
  match transposePy (files.map (fun f => getDataValues f.2)) with
  | [] => none
  | metaCol :: kindCols =>
    match aggregateColumn fids metaCol with
    | none => none
    | some metaRows =>
      some ⟨("meta", DFrame.metaTable metaRows) ::
        (queue.zip (kindCols.map (fun col => reformat metaRows (aggregateColumn fids col)))).map
          (fun p => (p.1, DFrame.kindTable p.2))⟩

/-- The DFrame stored for the k-th queued kind of an aggregation result. -/
def kindFrame (o : Option OutputStruct) (k : Nat) : Option DFrame :=
  o.bind (fun out => (out.dataframes[k + 1]?).map Prod.snd)

/-- The rows of the k-th queued kind of an aggregation result, when that
kind aggregated to a present table. -/
def kindRows (o : Option OutputStruct) (k : Nat) : Option (List AggRow) :=
  match kindFrame o k with
  | some (DFrame.kindTable (some rows)) => some rows
  | _ => none

/-- The concatenated metadata table produced by aggregate_data: the two
metadata rows of every recording, keyed by its identifier. -/
def metaAgg (files : List (String × RecordingData)) : List (String × SRow) :=
  files.flatMap (fun f => (metaSeries f.2).map (fun row => (f.1, row)))

/-- The per-recording entries of one queued kind, in recording order. -/
def kindCol (files : List (String × RecordingData)) (k : Nat) : List (Option (List SRow)) :=
  files.map (fun f => f.2.kinds.getD k none)

/-- The concatenation, keyed by recording identifier, of the present
per-recording tables of one queued kind, skipping absent recordings. -/
def kindConcat (files : List (String × RecordingData)) (k : Nat) : List (String × SRow) :=
  (files.filterMap (fun f => (f.2.kinds.getD k none).map (fun t => (f.1, t)))).flatMap
    (fun p => p.2.map (fun row => (p.1, row)))

/-! ### Configuration stage (calc.py, GetDataBuilder)

The request queue is a Python dict used as an ordered set: assigning an
existing key keeps its position, a new key is appended.  Numeric
parameters are modelled as reals so that the octave-derived PSD bin width
(a real exponential expression) is exact.  Raised ValueErrors are
modelled as Except.error. -/

/-- Ordered-set insertion of a dict key: keep the position of an existing
key, append a new one. -/
def queueAdd (q : List String) (k : String) : List String :=
  if k ∈ q then q else q ++ [k]

/-- The configuration state of GetDataBuilder. -/
structure GetDataBuilder where
  metrics_queue : List String
  psd_freq_bin_width : Option ℝ
  psd_freq_start_octave : Option ℝ
  psd_bins_per_octave : Option ℝ
  psd_window : Option String
  pvss_init_freq : Option ℝ
  pvss_bins_per_octave : Option ℝ
  peak_window_margin_len : Option Nat
  vc_init_freq : Option ℝ
  vc_bins_per_octave : Option ℝ

/-- The GetDataBuilder constructor: reject an absolute bound and a margin
on the same edge of the acceleration window, then start with an empty
queue and all parameters unset. -/
def GetDataBuilder.build (accel_start_time accel_end_time accel_start_margin
    accel_end_margin : Option ℝ) : Except String GetDataBuilder :=
  if accel_start_time.isSome && accel_start_margin.isSome then
    Except.error "only one of accel_start_time and accel_start_margin may be set at once"
  else if accel_end_time.isSome && accel_end_margin.isSome then
    Except.error "only one of accel_end_time and accel_end_margin may be set at once"
  else
    Except.ok
      { metrics_queue := [], psd_freq_bin_width := none, psd_freq_start_octave := none,
        psd_bins_per_octave := none, psd_window := none, pvss_init_freq := none,
        pvss_bins_per_octave := none, peak_window_margin_len := none,
        vc_init_freq := none, vc_bins_per_octave := none }

/-- Python int(x): truncation toward zero. -/
noncomputable def pyInt (x : ℝ) : ℤ := if 0 ≤ x then ⌊x⌋ else ⌈x⌉

/-- The fstart_breadth expression of add_psd:
2 ^ (1 / (2 b)) - 2 ^ (-1 / (2 b)). -/
noncomputable def fstartBreadth (b : ℝ) : ℝ :=
  (2 : ℝ) ^ ((1 : ℝ) / (2 * b)) - (2 : ℝ) ^ ((-1 : ℝ) / (2 * b))

/-- GetDataBuilder.add_psd: reject when neither a bin width nor an octave
density is given; with only a density, default the octave start frequency
to 1 and derive the bin width as fstart / int(5 / fstart_breadth).  When
that int is zero the Python division raises a ZeroDivisionError, modelled
as an error result (this also covers a zero density, where Python already
raises while computing fstart_breadth itself). -/
noncomputable def add_psd (b : GetDataBuilder) (freq_bin_width freq_start_octave
    bins_per_octave : Option ℝ) (window : String) : Except String GetDataBuilder :=
  match freq_bin_width, bins_per_octave with
  | none, none =>
    Except.error "must at least provide parameters for one of linear and log-spaced modes"
  | none, some bpo =>
    let fso := freq_start_octave.getD 1
    let divisor := pyInt (5 / fstartBreadth bpo)
    if divisor = 0 then Except.error "ZeroDivisionError: division by zero"
    else
      Except.ok
        { b with
          metrics_queue := queueAdd b.metrics_queue "psd"
          psd_freq_bin_width := some (fso / (divisor : ℝ))
          psd_freq_start_octave := some fso
          psd_bins_per_octave := some bpo
          psd_window := some window }
  | some w, _ =>
    Except.ok
      { b with
        metrics_queue := queueAdd b.metrics_queue "psd"
        psd_freq_bin_width := some w
        psd_freq_start_octave := freq_start_octave
        psd_bins_per_octave := bins_per_octave
        psd_window := some window }

/-- GetDataBuilder.add_pvss. -/
def add_pvss (b : GetDataBuilder) (init_freq bins_per_octave : ℝ) : GetDataBuilder :=
  { b with
    metrics_queue := queueAdd b.metrics_queue "pvss"
    pvss_init_freq := some init_freq
    pvss_bins_per_octave := some bins_per_octave }

/-- GetDataBuilder.add_metrics: queue the metrics kind; if no pvss request
is queued, seed the default pvss parameters (without queueing pvss). -/
def add_metrics (b : GetDataBuilder) : GetDataBuilder :=
  let b1 := { b with metrics_queue := queueAdd b.metrics_queue "metrics" }
  if "pvss" ∈ b1.metrics_queue then b1
  else { b1 with pvss_init_freq := some 1, pvss_bins_per_octave := some 12 }

/-- GetDataBuilder.add_peaks. -/
def add_peaks (b : GetDataBuilder) (margin_len : Nat) : GetDataBuilder :=
  { b with
    metrics_queue := queueAdd b.metrics_queue "peaks"
    peak_window_margin_len := some margin_len }

/-- GetDataBuilder.add_vc_curves: queue the vc_curves kind; if no psd
request is queued, seed the default psd parameters (without queueing
psd). -/
noncomputable def add_vc_curves (b : GetDataBuilder) (init_freq bins_per_octave : ℝ) :
    GetDataBuilder :=
  let b1 := { b with metrics_queue := queueAdd b.metrics_queue "vc_curves" }
  let b2 :=
    if "psd" ∈ b1.metrics_queue then b1
    else { b1 with psd_freq_bin_width := some 0.2, psd_window := some "hanning" }
  { b2 with
    vc_init_freq := some init_freq
    vc_bins_per_octave := some bins_per_octave }

/-- One configuration call on a GetDataBuilder. -/
inductive AddOp where
  | psd (freq_bin_width freq_start_octave bins_per_octave : Option ℝ) (window : String)
  | pvss (init_freq bins_per_octave : ℝ)
  | metrics
  | peaks (margin_len : Nat)
  | vc_curves (init_freq bins_per_octave : ℝ)

/-- The request-queue key registered by a configuration call. -/
def opKind : AddOp → String
  | AddOp.psd _ _ _ _ => "psd"
  | AddOp.pvss _ _ => "pvss"
  | AddOp.metrics => "metrics"
  | AddOp.peaks _ => "peaks"
  | AddOp.vc_curves _ _ => "vc_curves"

/-- Apply one configuration call. -/
noncomputable def applyOp (b : GetDataBuilder) : AddOp → Except String GetDataBuilder
  | AddOp.psd w fso bpo win => add_psd b w fso bpo win
  | AddOp.pvss f bo => Except.ok (add_pvss b f bo)
  | AddOp.metrics => Except.ok (add_metrics b)
  | AddOp.peaks m => Except.ok (add_peaks b m)
  | AddOp.vc_curves f bo => Except.ok (add_vc_curves b f bo)

/-- Apply a sequence of configuration calls; a raised configuration error
aborts the sequence. -/
noncomputable def runOps (b : GetDataBuilder) : List AddOp → Except String GetDataBuilder
  | [] => Except.ok b
  | op :: ops =>
    match applyOp b op with
    | Except.error e => Except.error e
    | Except.ok b2 => runOps b2 ops

/-- The builder state in which every configuration call starts: an empty
queue and all parameters unset. -/
def emptyBuilder : GetDataBuilder :=
  { metrics_queue := [], psd_freq_bin_width := none, psd_freq_start_octave := none,
    psd_bins_per_octave := none, psd_window := none, pvss_init_freq := none,
    pvss_bins_per_octave := none, peak_window_margin_len := none,
    vc_init_freq := none, vc_bins_per_octave := none }

/-- The builder state reached from emptyBuilder by add_peaks 3 then
add_pvss 1 12; used to witness the queue-order theorem. -/
noncomputable def peaksPvssBuilder : GetDataBuilder :=
  { metrics_queue := ["peaks", "pvss"]
    psd_freq_bin_width := none
    psd_freq_start_octave := none
    psd_bins_per_octave := none
    psd_window := none
    pvss_init_freq := some 1
    pvss_bins_per_octave := some 12
    peak_window_margin_len := some 3
    vc_init_freq := none
    vc_bins_per_octave := none }

/-- Two sample recordings with two queued kinds each, the first kind
present only in the first recording and the second kind only in the
second; used to witness the aggregation theorems. -/
def sampleFiles : List (String × RecordingData) :=
  [("f1.ide",
    { serial := "S1"
      start := 100
      kinds := [some [(["X"], Cell.num 5), (["Y"], Cell.num 6)], none] }),
   ("f2.ide",
    { serial := "S2"
      start := 200
      kinds := [none, some [(["Y"], Cell.num 7)]] })]

/-- A sample recording with no acceleration channel: GPS and temperature
data are present, every acceleration-derived metric is missing. -/
def noAccelAnalyzer : Analyzer :=
  { channels := [("gps", { axis_names := ["Lat", "Lon"] })]
    accelerationData := []
    accelerationResultant := []
    accelerationFs := 1
    times := []
    firstTime := 0
    MPS2_TO_G := 1
    MPS_TO_MMPS := 1
    MPS_TO_UMPS := 1
    psdFreqs := []
    psdRows := []
    pvssFreqs := []
    pvssRows := []
    vcFreqs := []
    vcRows := []
    accRMSFull := [("X", none)]
    velRMSFull := [("X", none)]
    disRMSFull := []
    accPeakFull := []
    pseudoVelPeakFull := [("Resultant", none)]
    gpsLocFull := [("Lat", some 45), ("Lon", some 7)]
    gpsSpeedFull := [("", some 12)]
    gyroRMSFull := []
    micRMSFull := []
    tempFull := [("", some 20)]
    pressFull := [("", some 101)] }

/-- A sample recording whose two acceleration axes peak at different
sample indices (X at sample 0, Y at sample 2). -/
def twoPeakAnalyzer : Analyzer :=
  { channels := [("acc", { axis_names := ["X", "Y"] })]
    accelerationData := [[5, 1, 0], [0, 1, 7]]
    accelerationResultant := [5, 1, 7]
    accelerationFs := 10
    times := [100, 200, 300]
    firstTime := 50
    MPS2_TO_G := 1
    MPS_TO_MMPS := 1
    MPS_TO_UMPS := 1
    psdFreqs := []
    psdRows := []
    pvssFreqs := []
    pvssRows := []
    vcFreqs := []
    vcRows := []
    accRMSFull := []
    velRMSFull := []
    disRMSFull := []
    accPeakFull := []
    pseudoVelPeakFull := []
    gpsLocFull := []
    gpsSpeedFull := []
    gyroRMSFull := []
    micRMSFull := []
    tempFull := []
    pressFull := [] }

/-! ## Theorems -/

/-! ### Request-queue helper lemmas -/

theorem mem_queueAdd {q : List String} {k a : String} :
    a ∈ queueAdd q k ↔ a ∈ q ∨ a = k := by
  unfold queueAdd
  by_cases h : k ∈ q
  · simp only [if_pos h]
    constructor
    · exact Or.inl
    · rintro (ha | rfl) <;> assumption
  · simp [if_neg h, List.mem_append]

theorem queueAdd_nodup {q : List String} {k : String} (h : q.Nodup) :
    (queueAdd q k).Nodup := by
  unfold queueAdd
  by_cases hk : k ∈ q
  · simpa [if_pos hk]
  · rw [if_neg hk, List.nodup_append]
    refine ⟨h, List.nodup_singleton k, fun a ha hak => hk ?_⟩
    simp only [List.mem_singleton] at hak
    subst hak
    exact ha

theorem foldl_queueAdd_nodup (ks : List String) :
    ∀ q : List String, q.Nodup → (ks.foldl queueAdd q).Nodup := by
  induction ks with
  | nil => intro q h; simpa using h
  | cons k ks ih => intro q h; exact ih _ (queueAdd_nodup h)

/-- C10: calling aggregate_data with an empty list of recording
identifiers fails (modelling the ValueError raised when unpacking the
empty transposed sequence) instead of returning an empty result
package. -/
theorem aggregate_data_empty_input (queue : List String) :
    aggregate_data queue [] = none := rfl

/-- C7: the GetDataBuilder constructor raises a configuration error if
and only if an absolute time bound and a relative margin are both given
for the same edge of the acceleration window; in particular mixing an
absolute bound on one edge with a margin on the other is accepted.  The
check happens in the constructor, before any recording is touched. -/
theorem build_time_margin_conflict (st et sm em : Option ℝ) :
    (GetDataBuilder.build st et sm em).isOk = false ↔
      (st.isSome = true ∧ sm.isSome = true) ∨ (et.isSome = true ∧ em.isSome = true) := by
  rcases st <;> rcases sm <;> rcases et <;> rcases em <;>
    simp [GetDataBuilder.build, Except.isOk, Except.toBool]

/-- C3: add_metrics with no queued pvss request seeds the default pvss
parameters (initial frequency 1, 12 bins per octave) without queueing
pvss, and leaves explicitly set pvss parameters alone when pvss is
already queued; add_vc_curves with no queued psd request seeds the
default psd bin width 0.2 without queueing psd, and leaves the psd
parameters alone when psd is already queued. -/
theorem seeded_default_parameters (b : GetDataBuilder) (f bo : ℝ) :
    (("pvss" ∉ b.metrics_queue →
        (add_metrics b).pvss_init_freq = some 1 ∧
        (add_metrics b).pvss_bins_per_octave = some 12) ∧
      ("pvss" ∈ b.metrics_queue →
        (add_metrics b).pvss_init_freq = b.pvss_init_freq ∧
        (add_metrics b).pvss_bins_per_octave = b.pvss_bins_per_octave) ∧
      ("pvss" ∈ (add_metrics b).metrics_queue ↔ "pvss" ∈ b.metrics_queue)) ∧
    (("psd" ∉ b.metrics_queue →
        (add_vc_curves b f bo).psd_freq_bin_width = some 0.2 ∧
        (add_vc_curves b f bo).psd_window = some "hanning") ∧
      ("psd" ∈ b.metrics_queue →
        (add_vc_curves b f bo).psd_freq_bin_width = b.psd_freq_bin_width ∧
        (add_vc_curves b f bo).psd_freq_start_octave = b.psd_freq_start_octave ∧
        (add_vc_curves b f bo).psd_bins_per_octave = b.psd_bins_per_octave ∧
        (add_vc_curves b f bo).psd_window = b.psd_window) ∧
      ("psd" ∈ (add_vc_curves b f bo).metrics_queue ↔ "psd" ∈ b.metrics_queue)) := by
  have hpvss : ("pvss" ∈ queueAdd b.metrics_queue "metrics") ↔ "pvss" ∈ b.metrics_queue := by
    rw [mem_queueAdd]
    simp
  have hpsd : ("psd" ∈ queueAdd b.metrics_queue "vc_curves") ↔ "psd" ∈ b.metrics_queue := by
    rw [mem_queueAdd]
    simp
  refine ⟨⟨?_, ?_, ?_⟩, ⟨?_, ?_, ?_⟩⟩ <;>
    simp only [add_metrics, add_vc_curves, hpvss, hpsd, mem_queueAdd] <;>
    intros <;> split_ifs <;> simp_all

/-- Witness for seeded_default_parameters: on a fresh builder neither
pvss nor psd is queued, so both defaults are seeded. -/
theorem seeded_default_parameters_witness :
    ("pvss" ∉ emptyBuilder.metrics_queue) ∧
    ((add_metrics emptyBuilder).pvss_init_freq = some 1 ∧
      (add_metrics emptyBuilder).pvss_bins_per_octave = some 12) ∧
    ("psd" ∉ emptyBuilder.metrics_queue) ∧
    ((add_vc_curves emptyBuilder 1 3).psd_freq_bin_width = some 0.2 ∧
      (add_vc_curves emptyBuilder 1 3).psd_window = some "hanning") := by
  have h := seeded_default_parameters emptyBuilder 1 3
  have h1 : "pvss" ∉ emptyBuilder.metrics_queue := by simp [emptyBuilder]
  have h2 : "psd" ∉ emptyBuilder.metrics_queue := by simp [emptyBuilder]
  exact ⟨h1, h.1.1 h1, h2, h.2.1 h2⟩

/-! ### Builder run lemmas -/

theorem applyOp_queue {b b2 : GetDataBuilder} {op : AddOp} (h : applyOp b op = Except.ok b2) :
    b2.metrics_queue = queueAdd b.metrics_queue (opKind op) := by
  cases op with
  | psd w fso bpo win =>
    unfold applyOp add_psd at h
    rcases w with _ | w
    · rcases bpo with _ | bpo
      · simp at h
      · dsimp only at h
        by_cases hz : pyInt (5 / fstartBreadth bpo) = 0
        · rw [if_pos hz] at h
          exact Except.noConfusion h
        · rw [if_neg hz] at h
          simp only [Except.ok.injEq] at h
          subst h
          rfl
    · simp only [Except.ok.injEq] at h
      subst h
      rfl
  | pvss f bo =>
    simp only [applyOp, Except.ok.injEq] at h
    subst h
    rfl
  | metrics =>
    simp only [applyOp, Except.ok.injEq] at h
    subst h
    unfold add_metrics
    dsimp only
    split_ifs <;> rfl
  | peaks m =>
    simp only [applyOp, Except.ok.injEq] at h
    subst h
    rfl
  | vc_curves f bo =>
    simp only [applyOp, Except.ok.injEq] at h
    subst h
    unfold add_vc_curves
    dsimp only
    split_ifs <;> rfl

theorem runOps_queue : ∀ (ops : List AddOp) (b b2 : GetDataBuilder),
    runOps b ops = Except.ok b2 →
    b2.metrics_queue = (ops.map opKind).foldl queueAdd b.metrics_queue := by
  intro ops
  induction ops with
  | nil =>
    intro b b2 h
    simp only [runOps, Except.ok.injEq] at h
    subst h
    rfl
  | cons op ops ih =>
    intro b b2 h
    unfold runOps at h
    cases hap : applyOp b op with
    | error e =>
      rw [hap] at h
      exact Except.noConfusion h
    | ok b3 =>
      simp only [hap] at h
      rw [ih b3 b2 h, List.map_cons, List.foldl_cons, applyOp_queue hap]

/-! ### Aggregation lemmas -/

theorem zip_map_same (f : α → β) (g : α → γ) :
    ∀ l : List α, (l.map f).zip (l.map g) = l.map (fun x => (f x, g x)) := by
  intro l
  induction l with
  | nil => rfl
  | cons a l ih => simp [ih]

theorem foldl_min_const (L : Nat) (rs : List (List α)) (h : ∀ r ∈ rs, r.length = L) :
    rs.foldl (fun m row => min m row.length) L = L := by
  induction rs with
  | nil => rfl
  | cons r rs ih =>
    have hr : r.length = L := h r (List.mem_cons_self r rs)
    simp only [List.foldl_cons, hr, min_self]
    exact ih (fun x hx => h x (List.mem_cons_of_mem _ hx))

theorem filterMap_getElem?_uniform (d : α) (i : Nat) (rows : List (List α))
    (h : ∀ r ∈ rows, i < r.length) :
    rows.filterMap (fun r => r[i]?) = rows.map (fun r => r.getD i d) := by
  induction rows with
  | nil => rfl
  | cons r rs ih =>
    have hr : i < r.length := h r (List.mem_cons_self r rs)
    simp only [List.filterMap_cons, List.getElem?_eq_getElem hr, List.map_cons,
      List.getD_eq_getElem r d hr, ih (fun x hx => h x (List.mem_cons_of_mem _ hx))]

theorem transposePy_uniform (d : α) (L : Nat) (rows : List (List α)) (hne : rows ≠ [])
    (h : ∀ r ∈ rows, r.length = L) :
    transposePy rows = (List.range L).map (fun i => rows.map (fun r => r.getD i d)) := by
  cases rows with
  | nil => exact absurd rfl hne
  | cons r rs =>
    have hL : rs.foldl (fun m row => min m row.length) r.length = L := by
      rw [h r (List.mem_cons_self r rs)]
      exact foldl_min_const L rs (fun x hx => h x (List.mem_cons_of_mem _ hx))
    simp only [transposePy, hL]
    apply List.map_congr_left
    intro i hi
    rw [List.mem_range] at hi
    exact filterMap_getElem?_uniform d i (r :: rs) (fun x hx => by rw [h x hx]; exact hi)

theorem aggregateColumn_meta (files : List (String × RecordingData)) (hne : files ≠ []) :
    aggregateColumn (files.map Prod.fst) (files.map (fun f => some (metaSeries f.2))) =
      some (metaAgg files) := by
  obtain ⟨g, hg⟩ := List.exists_mem_of_ne_nil files hne
  unfold aggregateColumn
  rw [if_pos]
  · congr 1
    rw [zip_map_same Prod.fst (fun f => some (metaSeries f.2)) files, List.filterMap_map]
    show (files.filterMap (fun f => some (f.1, metaSeries f.2))).flatMap _ = _
    rw [show (fun (f : String × RecordingData) => some (f.1, metaSeries f.2)) =
      (some ∘ fun f => (f.1, metaSeries f.2)) from rfl]
    rw [List.filterMap_eq_map, List.flatMap_map]
    rfl
  · refine ⟨by simpa using hne, ?_⟩
    rw [List.any_eq_true]
    exact ⟨some (metaSeries g.2), List.mem_map_of_mem _ hg, rfl⟩

theorem aggregateColumn_kindCol (files : List (String × RecordingData)) (k : Nat)
    (hne : files ≠ []) :
    aggregateColumn (files.map Prod.fst) (kindCol files k) =
      if ∀ f ∈ files, f.2.kinds.getD k none = none then none
      else some (kindConcat files k) := by
  unfold aggregateColumn kindCol kindConcat
  have hzip : (files.map Prod.fst).zip (files.map (fun f => f.2.kinds.getD k none)) =
      files.map (fun f => (f.1, f.2.kinds.getD k none)) :=
    zip_map_same Prod.fst (fun f => f.2.kinds.getD k none) files
  by_cases hall : ∀ f ∈ files, f.2.kinds.getD k none = none
  · rw [if_pos hall, if_neg]
    rintro ⟨-, hany⟩
    rw [List.any_eq_true] at hany
    obtain ⟨x, hx, hxs⟩ := hany
    rw [List.mem_map] at hx
    obtain ⟨f, hf, rfl⟩ := hx
    rw [hall f hf] at hxs
    simp at hxs
  · rw [if_neg hall, if_pos]
    · rw [hzip, List.filterMap_map]
      rfl
    · push_neg at hall
      obtain ⟨f, hf, hfs⟩ := hall
      refine ⟨by simpa using hne, ?_⟩
      rw [List.any_eq_true]
      refine ⟨f.2.kinds.getD k none, List.mem_map_of_mem _ hf, ?_⟩
      rwa [Option.isSome_iff_ne_none]

theorem aggregate_data_eq (queue : List String) (files : List (String × RecordingData))
    (hne : files ≠ []) (hlen : ∀ f ∈ files, f.2.kinds.length = queue.length) :
    aggregate_data queue files = some ⟨("meta", DFrame.metaTable (metaAgg files)) ::
      (queue.zip ((List.range queue.length).map (fun k =>
        reformat (metaAgg files) (aggregateColumn (files.map Prod.fst) (kindCol files k))))).map
        (fun p => (p.1, DFrame.kindTable p.2))⟩ := by
  have htr : transposePy (files.map (fun f => getDataValues f.2)) =
      (List.range (queue.length + 1)).map (fun i =>
        (files.map (fun f => getDataValues f.2)).map (fun r => r.getD i none)) := by
    refine transposePy_uniform none (queue.length + 1) _ (by simpa using hne) ?_
    intro r hr
    rw [List.mem_map] at hr
    obtain ⟨f, hf, rfl⟩ := hr
    simp [getDataValues, hlen f hf]
  have hhead : (files.map (fun f => getDataValues f.2)).map (fun r => r.getD 0 none) =
      files.map (fun f => some (metaSeries f.2)) := by
    rw [List.map_map]
    rfl
  have htail : ∀ i : Nat, (files.map (fun f => getDataValues f.2)).map
      (fun r => r.getD (Nat.succ i) none) = kindCol files i := by
    intro i
    rw [List.map_map]
    rfl
  unfold aggregate_data
  rw [htr, List.range_succ_eq_map, List.map_cons, hhead]
  dsimp only
  rw [aggregateColumn_meta files hne]
  dsimp only
  have hcols : (List.map (fun i => (files.map (fun f => getDataValues f.2)).map
        (fun r => r.getD i none)) (List.map Nat.succ (List.range queue.length))).map
      (fun col => reformat (metaAgg files) (aggregateColumn (files.map Prod.fst) col)) =
      (List.range queue.length).map (fun k =>
        reformat (metaAgg files) (aggregateColumn (files.map Prod.fst) (kindCol files k))) := by
    rw [List.map_map, List.map_map]
    apply List.map_congr_left
    intro i _
    show reformat _ (aggregateColumn _ ((files.map (fun f => getDataValues f.2)).map
      (fun r => r.getD (Nat.succ i) none))) = _
    rw [htail i]
  rw [hcols]

/-- C5: a successful sequence of configuration calls leaves the request
queue holding each kind at most once, in order of first insertion
(upserting an existing key keeps its original position), and
aggregate_data lists the tables in exactly that queue order with the
meta table always first. -/
theorem request_queue_and_output_order (t1 t2 m1 m2 : Option ℝ)
    (b0 b1 : GetDataBuilder) (ops : List AddOp)
    (h0 : GetDataBuilder.build t1 t2 m1 m2 = Except.ok b0)
    (hrun : runOps b0 ops = Except.ok b1) :
    b1.metrics_queue = (ops.map opKind).foldl queueAdd [] ∧
    b1.metrics_queue.Nodup ∧
    (∀ (b : GetDataBuilder) (f1 o1 f2 o2 : ℝ),
      (add_pvss (add_pvss b f1 o1) f2 o2).pvss_init_freq = some f2 ∧
      (add_pvss (add_pvss b f1 o1) f2 o2).pvss_bins_per_octave = some o2 ∧
      (add_pvss (add_pvss b f1 o1) f2 o2).metrics_queue =
        (add_pvss b f1 o1).metrics_queue) ∧
    ∀ files : List (String × RecordingData), files ≠ [] →
      (∀ f ∈ files, f.2.kinds.length = b1.metrics_queue.length) →
      (aggregate_data b1.metrics_queue files).map
        (fun o => o.dataframes.map Prod.fst) = some ("meta" :: b1.metrics_queue) := by
  have hupsert : ∀ (b : GetDataBuilder) (f1 o1 f2 o2 : ℝ),
      (add_pvss (add_pvss b f1 o1) f2 o2).pvss_init_freq = some f2 ∧
      (add_pvss (add_pvss b f1 o1) f2 o2).pvss_bins_per_octave = some o2 ∧
      (add_pvss (add_pvss b f1 o1) f2 o2).metrics_queue =
        (add_pvss b f1 o1).metrics_queue := by
    intro b f1 o1 f2 o2
    refine ⟨rfl, rfl, ?_⟩
    show queueAdd (queueAdd b.metrics_queue "pvss") "pvss" = queueAdd b.metrics_queue "pvss"
    unfold queueAdd
    rw [if_pos]
    by_cases hm : "pvss" ∈ b.metrics_queue
    · rw [if_pos hm]
      exact hm
    · rw [if_neg hm]
      simp
  have hq0 : b0.metrics_queue = [] := by
    unfold GetDataBuilder.build at h0
    split_ifs at h0 <;> simp only [Except.ok.injEq] at h0 <;> rw [← h0]
  have hq : b1.metrics_queue = (ops.map opKind).foldl queueAdd [] := by
    rw [runOps_queue ops b0 b1 hrun, hq0]
  refine ⟨hq, ?_, hupsert, ?_⟩
  · rw [hq]
    exact foldl_queueAdd_nodup _ _ List.nodup_nil
  · intro files hne hlen
    rw [aggregate_data_eq b1.metrics_queue files hne hlen]
    rw [Option.map_some']
    refine congrArg some ?_
    show (("meta", DFrame.metaTable (metaAgg files)) :: _).map Prod.fst = _
    rw [List.map_cons]
    refine congrArg (List.cons "meta") ?_
    rw [List.map_map]
    rw [show (Prod.fst ∘ fun (p : String × Option (List AggRow)) =>
      (p.1, DFrame.kindTable p.2)) = Prod.fst from rfl]
    apply List.map_fst_zip
    simp

/-- Witness for request_queue_and_output_order: two calls on a fresh
builder queue peaks then pvss, and aggregating two sample recordings
yields tables named meta, peaks, pvss in that order. -/
theorem request_queue_and_output_order_witness :
    (GetDataBuilder.build none none none none = Except.ok emptyBuilder) ∧
    (runOps emptyBuilder [AddOp.peaks 3, AddOp.pvss 1 12] = Except.ok peaksPvssBuilder) ∧
    (peaksPvssBuilder.metrics_queue =
      ([AddOp.peaks 3, AddOp.pvss 1 12].map opKind).foldl queueAdd [] ∧
     peaksPvssBuilder.metrics_queue.Nodup ∧
     (add_pvss (add_pvss emptyBuilder 1 12) 2 24).pvss_init_freq = some 2 ∧
     (add_pvss (add_pvss emptyBuilder 1 12) 2 24).metrics_queue =
       (add_pvss emptyBuilder 1 12).metrics_queue) ∧
    (aggregate_data peaksPvssBuilder.metrics_queue sampleFiles).map
      (fun o => o.dataframes.map Prod.fst) = some ["meta", "peaks", "pvss"] := by
  have h0 : GetDataBuilder.build none none none none = Except.ok emptyBuilder := rfl
  have h1 : runOps emptyBuilder [AddOp.peaks 3, AddOp.pvss 1 12] =
      Except.ok peaksPvssBuilder := rfl
  have h := request_queue_and_output_order none none none none emptyBuilder
    peaksPvssBuilder [AddOp.peaks 3, AddOp.pvss 1 12] h0 h1
  refine ⟨h0, h1, ⟨h.1, h.2.1, (h.2.2.1 emptyBuilder 1 12 2 24).1,
    (h.2.2.1 emptyBuilder 1 12 2 24).2.2⟩, ?_⟩
  have h2 := h.2.2.2 sampleFiles (by simp [sampleFiles]) (by decide)
  simpa [peaksPvssBuilder] using h2

theorem kindFrame_eq (queue : List String) (files : List (String × RecordingData))
    (k : Nat) (hne : files ≠ []) (hlen : ∀ f ∈ files, f.2.kinds.length = queue.length)
    (hk : k < queue.length) :
    kindFrame (aggregate_data queue files) k =
      some (DFrame.kindTable (reformat (metaAgg files)
        (aggregateColumn (files.map Prod.fst) (kindCol files k)))) := by
  rw [aggregate_data_eq queue files hne hlen]
  unfold kindFrame
  rw [Option.some_bind, List.getElem?_cons_succ]
  have hxlen : ((List.range queue.length).map (fun k =>
      reformat (metaAgg files) (aggregateColumn (files.map Prod.fst)
        (kindCol files k)))).length = queue.length := by
    simp
  have hzlen : k < (queue.zip ((List.range queue.length).map (fun k =>
      reformat (metaAgg files) (aggregateColumn (files.map Prod.fst)
        (kindCol files k))))).length := by
    rw [List.length_zip, hxlen]
    exact lt_min hk hk
  rw [List.getElem?_map, List.getElem?_eq_getElem hzlen, List.getElem_zip]
  simp [List.getElem_map, List.getElem_range]

theorem kindConcat_length (files : List (String × RecordingData)) (k : Nat) :
    (kindConcat files k).length =
      (files.map (fun f => ((f.2.kinds.getD k none).getD []).length)).sum := by
  unfold kindConcat
  induction files with
  | nil => rfl
  | cons f fs ih =>
    rw [List.map_cons, List.sum_cons]
    cases hf : f.2.kinds.getD k none with
    | none =>
      rw [List.filterMap_cons, hf]
      simp only [Option.map_none', Option.getD_none, List.length_nil, Nat.zero_add]
      exact ih
    | some t =>
      rw [List.filterMap_cons, hf]
      simp only [Option.map_some', Option.getD_some]
      rw [List.flatMap_cons, List.length_append, List.length_map, ih]

theorem kindConcat_fst_mem (files : List (String × RecordingData)) (k : Nat)
    (p : String × SRow) (hp : p ∈ kindConcat files k) : ∃ f ∈ files, p.1 = f.1 := by
  unfold kindConcat at hp
  rw [List.mem_flatMap] at hp
  obtain ⟨q, hq, hpq⟩ := hp
  rw [List.mem_filterMap] at hq
  obtain ⟨f, hf, hfq⟩ := hq
  rw [List.mem_map] at hpq
  obtain ⟨row, _, rfl⟩ := hpq
  cases ht : f.2.kinds.getD k none with
  | none => rw [ht] at hfq; cases hfq
  | some t =>
    rw [ht] at hfq
    simp only [Option.map_some', Option.some.injEq] at hfq
    subst hfq
    exact ⟨f, hf, rfl⟩

theorem metaLoc_cons_skip (rows : List (String × SRow)) (x : String × SRow)
    (fid col : String) (h : (x.1 == fid && x.2.1 == [col]) = false) :
    metaLoc (x :: rows) fid col = metaLoc rows fid col := by
  unfold metaLoc
  rw [List.find?_cons_of_neg rows (by rw [h]; exact Bool.false_ne_true)]

theorem metaLoc_metaAgg (files : List (String × RecordingData))
    (hnodup : (files.map Prod.fst).Nodup) (f : String × RecordingData) (hf : f ∈ files) :
    metaLoc (metaAgg files) f.1 "serial number" = some (Cell.str f.2.serial) ∧
    metaLoc (metaAgg files) f.1 "start time" = some (Cell.time f.2.start) := by
  induction files with
  | nil => cases hf
  | cons g gs ih =>
    rw [List.mem_cons] at hf
    have hagg : metaAgg (g :: gs) =
        (g.1, (["serial number"], Cell.str g.2.serial)) ::
        (g.1, (["start time"], Cell.time g.2.start)) :: metaAgg gs := by
      simp [metaAgg, metaSeries]
    rw [hagg]
    have hcol : ((["serial number"] : List String) == ["start time"]) = false := by
      decide
    rcases hf with rfl | hf'
    · refine ⟨?_, ?_⟩
      · unfold metaLoc
        rw [List.find?_cons_of_pos _ (by simp)]
        rfl
      · rw [metaLoc_cons_skip _ _ _ _ (by rw [hcol, Bool.and_false])]
        unfold metaLoc
        rw [List.find?_cons_of_pos _ (by simp)]
        rfl
    · have hne1 : f.1 ≠ g.1 := by
        intro he
        rw [List.map_cons, List.nodup_cons] at hnodup
        exact hnodup.1 (he ▸ List.mem_map_of_mem Prod.fst hf')
      have hbeq : (g.1 == f.1) = false := by
        rw [beq_eq_false_iff_ne]
        exact fun he => hne1 he.symm
      have htail := ih
        (by rw [List.map_cons, List.nodup_cons] at hnodup; exact hnodup.2) hf'
      rw [metaLoc_cons_skip _ _ _ _ (by rw [hbeq, Bool.false_and]),
        metaLoc_cons_skip _ _ _ _ (by rw [hbeq, Bool.false_and]),
        metaLoc_cons_skip _ _ _ _ (by rw [hbeq, Bool.false_and]),
        metaLoc_cons_skip _ _ _ _ (by rw [hbeq, Bool.false_and])]
      exact htail

/-- C2: with complete, uniquely keyed metadata, the aggregated table of a
requested kind has exactly the sum of the per-recording row counts, and
every row carries the serial number and start time of the recording it
came from. -/
theorem aggregation_join_row_counts (queue : List String)
    (files : List (String × RecordingData)) (k : Nat)
    (hne : files ≠ []) (hnodup : (files.map Prod.fst).Nodup)
    (hlen : ∀ f ∈ files, f.2.kinds.length = queue.length) (hk : k < queue.length)
    (hx : ∃ f ∈ files, f.2.kinds.getD k none ≠ none) :
    (kindRows (aggregate_data queue files) k).map List.length =
      some ((files.map (fun f => ((f.2.kinds.getD k none).getD []).length)).sum) ∧
    ∀ rows, kindRows (aggregate_data queue files) k = some rows →
      ∀ row ∈ rows, (∃ f ∈ files, row.filename = f.1) ∧
        ∀ f ∈ files, row.filename = f.1 →
          row.serial = some (Cell.str f.2.serial) ∧
          row.start = some (Cell.time f.2.start) := by
  have hnall : ¬ ∀ f ∈ files, f.2.kinds.getD k none = none := by
    obtain ⟨f, hf, hfx⟩ := hx
    exact fun h => hfx (h f hf)
  have hrows : kindRows (aggregate_data queue files) k =
      some ((kindConcat files k).map (fun p =>
        { filename := p.1, index := p.2.1, value := p.2.2,
          serial := metaLoc (metaAgg files) p.1 "serial number",
          start := metaLoc (metaAgg files) p.1 "start time" })) := by
    unfold kindRows
    rw [kindFrame_eq queue files k hne hlen hk, aggregateColumn_kindCol files k hne,
      if_neg hnall]
    rfl
  constructor
  · rw [hrows, Option.map_some', List.length_map, kindConcat_length]
  · intro rows heq row hrow
    rw [hrows, Option.some.injEq] at heq
    subst heq
    rw [List.mem_map] at hrow
    obtain ⟨p, hp, rfl⟩ := hrow
    obtain ⟨f, hf, hpf⟩ := kindConcat_fst_mem files k p hp
    refine ⟨⟨f, hf, hpf⟩, ?_⟩
    intro f2 hf2 hfn
    have hmeta := metaLoc_metaAgg files hnodup f2 hf2
    have hfn2 : p.1 = f2.1 := hfn
    show metaLoc (metaAgg files) p.1 "serial number" = _ ∧
      metaLoc (metaAgg files) p.1 "start time" = _
    rw [hfn2]
    exact hmeta

/-- C6: aggregation concatenates each requested kind across recordings
keyed by recording identifier, skipping recordings that lack the kind;
when every recording lacks it the aggregated entry is the absent value,
and in all cases aggregation itself succeeds. -/
theorem aggregation_skips_missing (queue : List String)
    (files : List (String × RecordingData)) (k : Nat)
    (hne : files ≠ []) (hlen : ∀ f ∈ files, f.2.kinds.length = queue.length)
    (hk : k < queue.length) :
    (aggregate_data queue files).isSome = true ∧
    (kindFrame (aggregate_data queue files) k = some (DFrame.kindTable none) ↔
      ∀ f ∈ files, f.2.kinds.getD k none = none) ∧
    ∀ rows, kindRows (aggregate_data queue files) k = some rows →
      rows.map (fun r => (r.filename, r.index, r.value)) = kindConcat files k := by
  have hframe := kindFrame_eq queue files k hne hlen hk
  refine ⟨?_, ?_, ?_⟩
  · rw [aggregate_data_eq queue files hne hlen]
    rfl
  · rw [hframe, aggregateColumn_kindCol files k hne]
    by_cases hall : ∀ f ∈ files, f.2.kinds.getD k none = none
    · rw [if_pos hall]
      exact iff_of_true rfl hall
    · rw [if_neg hall]
      constructor
      · intro h
        simp only [reformat, Option.map_some', Option.some.injEq,
          DFrame.kindTable.injEq] at h
        exact absurd h (Option.some_ne_none _)
      · intro h
        exact absurd h hall
  · intro rows heq
    unfold kindRows at heq
    rw [hframe, aggregateColumn_kindCol files k hne] at heq
    by_cases hall : ∀ f ∈ files, f.2.kinds.getD k none = none
    · rw [if_pos hall] at heq
      simp [reformat] at heq
    · rw [if_neg hall] at heq
      simp only [reformat, Option.map_some'] at heq
      rw [Option.some.injEq] at heq
      subst heq
      rw [List.map_map]
      exact List.map_congr_left (fun p _ => rfl) |>.trans (List.map_id _)

/-- Witness for aggregation_join_row_counts: two sample recordings, the
first contributing two rows of kind 0 and the second none. -/
theorem aggregation_join_row_counts_witness :
    (sampleFiles ≠ [] ∧ (sampleFiles.map Prod.fst).Nodup ∧
      (∀ f ∈ sampleFiles, f.2.kinds.length = (["psd", "peaks"] : List String).length) ∧
      0 < (["psd", "peaks"] : List String).length ∧
      (∃ f ∈ sampleFiles, f.2.kinds.getD 0 none ≠ none)) ∧
    ((kindRows (aggregate_data ["psd", "peaks"] sampleFiles) 0).map List.length =
      some ((sampleFiles.map (fun f => ((f.2.kinds.getD 0 none).getD []).length)).sum) ∧
     ∀ rows, kindRows (aggregate_data ["psd", "peaks"] sampleFiles) 0 = some rows →
       ∀ row ∈ rows, (∃ f ∈ sampleFiles, row.filename = f.1) ∧
         ∀ f ∈ sampleFiles, row.filename = f.1 →
           row.serial = some (Cell.str f.2.serial) ∧
           row.start = some (Cell.time f.2.start)) :=
  ⟨⟨by decide, by decide, by decide, by decide, by decide⟩,
   aggregation_join_row_counts ["psd", "peaks"] sampleFiles 0 (by decide) (by decide)
     (by decide) (by decide) (by decide)⟩

/-- Witness for aggregation_skips_missing: kind 1 is absent from the
first sample recording and present in the second. -/
theorem aggregation_skips_missing_witness :
    (sampleFiles ≠ [] ∧
      (∀ f ∈ sampleFiles, f.2.kinds.length = (["psd", "peaks"] : List String).length) ∧
      1 < (["psd", "peaks"] : List String).length) ∧
    ((aggregate_data ["psd", "peaks"] sampleFiles).isSome = true ∧
     (kindFrame (aggregate_data ["psd", "peaks"] sampleFiles) 1 =
        some (DFrame.kindTable none) ↔
       ∀ f ∈ sampleFiles, f.2.kinds.getD 1 none = none) ∧
     ∀ rows, kindRows (aggregate_data ["psd", "peaks"] sampleFiles) 1 = some rows →
       rows.map (fun r => (r.filename, r.index, r.value)) = kindConcat sampleFiles 1) :=
  ⟨⟨by decide, by decide, by decide⟩,
   aggregation_skips_missing ["psd", "peaks"] sampleFiles 1 (by decide) (by decide)
     (by decide)⟩

/-- Witness for build_time_margin_conflict: a start time together with a
start margin is rejected, while a start time with an end margin is
accepted. -/
theorem build_time_margin_conflict_witness :
    (GetDataBuilder.build (some 5) none (some 2) none).isOk = false ∧
    (GetDataBuilder.build (some 5) none none (some 2)).isOk = true := by
  constructor
  · exact (build_time_margin_conflict (some 5) none (some 2) none).mpr
      (Or.inl ⟨rfl, rfl⟩)
  · have h := build_time_margin_conflict (some 5) none none (some 2)
    cases hb : (GetDataBuilder.build (some 5) none none (some 2)).isOk with
    | true => rfl
    | false =>
      exfalso
      rcases h.mp hb with ⟨-, h2⟩ | ⟨h2, -⟩ <;> exact absurd h2 (by simp)

/-- Witness for aggregate_data_empty_input at a concrete queue. -/
theorem aggregate_data_empty_input_witness :
    aggregate_data ["psd", "peaks"] [] = none :=
  aggregate_data_empty_input ["psd", "peaks"]

/-- Counterexample to C4 as stated: with no bin width and a density of
0.1 the breadth is 2^5 - 2^(-5) = 1023/32, so int(5 / breadth) = 0 and
the Python division raises a ZeroDivisionError; add_psd therefore fails
even though bins_per_octave is not None, refuting the claimed
error-iff-both-None equivalence. -/
theorem add_psd_width_claim_counterexample :
    ¬(((add_psd emptyBuilder none none (some 0.1) "hanning").isOk = false) ↔
      ((none : Option ℝ) = none ∧ (some (0.1 : ℝ) : Option ℝ) = none)) := by
  have h25 : (2 : ℝ) ^ ((1 : ℝ) / (2 * 0.1)) = 32 := by
    rw [show (1 : ℝ) / (2 * 0.1) = ((5 : ℕ) : ℝ) by norm_num, Real.rpow_natCast]
    norm_num
  have h2m5 : (2 : ℝ) ^ ((-1 : ℝ) / (2 * 0.1)) = 1 / 32 := by
    rw [show (-1 : ℝ) / (2 * 0.1) = -((5 : ℕ) : ℝ) by norm_num,
      Real.rpow_neg (by norm_num : (0 : ℝ) ≤ 2), Real.rpow_natCast]
    norm_num
  have hbr : fstartBreadth 0.1 = 1023 / 32 := by
    unfold fstartBreadth
    rw [h25, h2m5]
    norm_num
  have hdiv : pyInt ((5 : ℝ) / fstartBreadth 0.1) = 0 := by
    unfold pyInt
    rw [hbr, if_pos (by norm_num), Int.floor_eq_iff]
    norm_num
  have herr : (add_psd emptyBuilder none none (some 0.1) "hanning").isOk = false := by
    unfold add_psd
    dsimp only
    rw [if_pos hdiv]
    rfl
  intro hiff
  exact Option.noConfusion (hiff.mp herr).2

/-- C4 (amended): add_psd fails exactly when both the frequency-bin
width and the octave density are missing (the configuration error) or
when only a density is given whose derived divisor
int(5 / fstart_breadth) is zero (the ZeroDivisionError of the source,
hit for example by any density in (0, about 0.21]); when only a density
d > 0 with fstart_breadth d at most 5 is given, the stored bin width is
derived as fstart / floor(5 / (2^(1/(2 d)) - 2^(-1/(2 d)))), with the
octave start frequency defaulting to 1 when not supplied. -/
theorem add_psd_width_derivation (b : GetDataBuilder) (fso : Option ℝ) (w : String) :
    (∀ fbw bpo : Option ℝ,
      ((add_psd b fbw fso bpo w).isOk = false ↔
        (fbw = none ∧ bpo = none) ∨
        (fbw = none ∧ ∃ d, bpo = some d ∧ pyInt (5 / fstartBreadth d) = 0))) ∧
    ∀ d : ℝ, 0 < d → fstartBreadth d ≤ 5 →
      Except.map GetDataBuilder.psd_freq_bin_width (add_psd b none fso (some d) w) =
        Except.ok (some ((fso.getD 1) /
          ((⌊(5 : ℝ) / ((2 : ℝ) ^ ((1 : ℝ) / (2 * d)) -
            (2 : ℝ) ^ ((-1 : ℝ) / (2 * d)))⌋ : ℤ) : ℝ))) := by
  constructor
  · intro fbw bpo
    rcases fbw with _ | w0
    · rcases bpo with _ | d
      · simp [add_psd, Except.isOk, Except.toBool]
      · unfold add_psd
        dsimp only
        by_cases hz : pyInt (5 / fstartBreadth d) = 0
        · rw [if_pos hz]
          exact iff_of_true rfl (Or.inr ⟨rfl, d, rfl, hz⟩)
        · rw [if_neg hz]
          constructor
          · intro h
            exact absurd h (by simp [Except.isOk, Except.toBool])
          · rintro (⟨-, h⟩ | ⟨-, d2, hd2, hz2⟩)
            · exact absurd h (by simp)
            · rw [Option.some.injEq] at hd2
              subst hd2
              exact absurd hz2 hz
    · rcases bpo with _ | d <;> simp [add_psd, Except.isOk, Except.toBool]
  · intro d hd hble
    have hexp : (-1 : ℝ) / (2 * d) < (1 : ℝ) / (2 * d) := by
      rw [div_lt_div_right (by linarith : (0 : ℝ) < 2 * d)]
      norm_num
    have hlt : (2 : ℝ) ^ ((-1 : ℝ) / (2 * d)) < (2 : ℝ) ^ ((1 : ℝ) / (2 * d)) :=
      (Real.rpow_lt_rpow_left_iff (by norm_num)).mpr hexp
    have hbr : 0 < fstartBreadth d := by
      unfold fstartBreadth
      linarith
    have hone : (1 : ℝ) ≤ 5 / fstartBreadth d := (one_le_div hbr).mpr hble
    have hpos : 0 ≤ (5 : ℝ) / fstartBreadth d := le_trans zero_le_one hone
    have hfl : 1 ≤ ⌊(5 : ℝ) / fstartBreadth d⌋ := by
      rw [Int.le_floor]
      exact_mod_cast hone
    have hz : ¬ pyInt (5 / fstartBreadth d) = 0 := by
      unfold pyInt
      rw [if_pos hpos]
      omega
    show Except.map GetDataBuilder.psd_freq_bin_width
      (add_psd b none fso (some d) w) = _
    unfold add_psd
    dsimp only
    rw [if_neg hz]
    dsimp only [Except.map]
    unfold pyInt
    rw [if_pos hpos]
    rfl

/-- Witness for add_psd_width_derivation: with density 1 the breadth is
the square root of 2 minus its inverse, which is below 5; 5 over it is
5 sqrt 2, its floor is 7, so the derived bin width is 1/7. -/
theorem add_psd_width_derivation_witness :
    ((0 : ℝ) < 1) ∧ fstartBreadth 1 ≤ 5 ∧
    Except.map GetDataBuilder.psd_freq_bin_width
      (add_psd emptyBuilder none none (some 1) "hanning") =
      Except.ok (some ((1 : ℝ) / 7)) := by
  have hs2 : Real.sqrt 2 ^ 2 = 2 := Real.sq_sqrt (by norm_num)
  have hsp : 0 < Real.sqrt 2 := Real.sqrt_pos.mpr (by norm_num)
  have h12 : (2 : ℝ) ^ ((1 : ℝ) / (2 * 1)) = Real.sqrt 2 := by
    rw [show (1 : ℝ) / (2 * 1) = 1 / 2 by norm_num]
    exact (Real.sqrt_eq_rpow 2).symm
  have hm12 : (2 : ℝ) ^ ((-1 : ℝ) / (2 * 1)) = (Real.sqrt 2)⁻¹ := by
    rw [show (-1 : ℝ) / (2 * 1) = -(1 / 2) by norm_num,
      Real.rpow_neg (by norm_num : (0 : ℝ) ≤ 2), ← Real.sqrt_eq_rpow]
  have hinv : (Real.sqrt 2)⁻¹ = Real.sqrt 2 / 2 := by
    field_simp
  have hble : fstartBreadth 1 ≤ 5 := by
    unfold fstartBreadth
    rw [h12, hm12, hinv]
    nlinarith [hs2, hsp]
  have h := (add_psd_width_derivation emptyBuilder none "hanning").2 1 one_pos hble
  refine ⟨one_pos, hble, ?_⟩
  rw [h]
  have h5s : (5 : ℝ) / (Real.sqrt 2 - (Real.sqrt 2)⁻¹) = 5 * Real.sqrt 2 := by
    rw [hinv, show Real.sqrt 2 - Real.sqrt 2 / 2 = Real.sqrt 2 / 2 by ring,
      div_eq_iff (by positivity : Real.sqrt 2 / 2 ≠ 0)]
    nlinarith [hs2]
  have hfloor : ⌊(5 : ℝ) / (Real.sqrt 2 - (Real.sqrt 2)⁻¹)⌋ = (7 : ℤ) := by
    rw [h5s, Int.floor_eq_iff]
    constructor
    · push_cast
      nlinarith [hs2, hsp]
    · push_cast
      nlinarith [hs2, hsp]
  rw [h12, hm12, hfloor]
  norm_num [Option.getD_none]

/-- C8: when a recording has no usable acceleration channel, the
spectrum, peak-window, vc-curve (and shock-spectrum) formatters return
the explicit absent value, and the acceleration-derived scalar metrics
are absent from the stacked metrics table; no formatter raises.  The
absence of the acceleration-derived metric values is the spec-modelled
behaviour of the Analyzer facade (accelMetricsAbsent). -/
theorem no_accel_channel_no_result
    (toOctave : List ℚ → List (List ℚ) → ℚ → ℚ → List ℚ × List (List ℚ))
    (l2norm : List ℚ → ℚ) (a : Analyzer) (m : Nat) (fstart bpo : Option ℚ)
    (hacc : a.channels.lookup "acc" = none) (habs : accelMetricsAbsent a) :
    make_psd toOctave a fstart bpo = none ∧
    make_peak_windows a m = none ∧
    make_vc_curves l2norm a = none ∧
    make_pvss l2norm a = none ∧
    ∀ row ∈ make_metrics a, row.1.1 ∉ accelDerivedNames := by
  refine ⟨?_, ?_, ?_, ?_, ?_⟩
  · unfold make_psd
    rw [hacc]
  · unfold make_peak_windows
    rw [hacc]
  · unfold make_vc_curves
    rw [hacc]
  · unfold make_pvss
    rw [hacc]
  · intro row hrow
    unfold make_metrics at hrow
    rw [List.mem_flatMap] at hrow
    obtain ⟨p, hp, hrowp⟩ := hrow
    rw [List.mem_filterMap] at hrowp
    obtain ⟨q, hq, hqrow⟩ := hrowp
    simp only [metricsRows, List.mem_cons, List.mem_singleton, List.not_mem_nil,
      or_false] at hp
    rcases hp with rfl | rfl | rfl | rfl | rfl | rfl | rfl | rfl | rfl | rfl | rfl <;>
      cases hq2 : q.2 with
      | none =>
        rw [hq2] at hqrow
        cases hqrow
      | some v =>
        rw [hq2] at hqrow
        simp only [Option.map_some', Option.some.injEq] at hqrow
        subst hqrow
        first
          | exact absurd (hq2.symm.trans (habs.1 q hq)) (Option.some_ne_none v)
          | exact absurd (hq2.symm.trans (habs.2.1 q hq)) (Option.some_ne_none v)
          | exact absurd (hq2.symm.trans (habs.2.2.1 q hq)) (Option.some_ne_none v)
          | exact absurd (hq2.symm.trans (habs.2.2.2.1 q hq)) (Option.some_ne_none v)
          | exact absurd (hq2.symm.trans (habs.2.2.2.2 q hq)) (Option.some_ne_none v)
          | simp [accelDerivedNames]

/-- Witness for no_accel_channel_no_result: a recording exposing only
GPS and temperature data. -/
theorem no_accel_channel_no_result_witness :
    (noAccelAnalyzer.channels.lookup "acc" = none ∧ accelMetricsAbsent noAccelAnalyzer) ∧
    (make_psd (fun f p _ _ => (f, p)) noAccelAnalyzer none none = none ∧
     make_peak_windows noAccelAnalyzer 4 = none ∧
     make_vc_curves (fun _ => 0) noAccelAnalyzer = none ∧
     make_pvss (fun _ => 0) noAccelAnalyzer = none ∧
     ∀ row ∈ make_metrics noAccelAnalyzer, row.1.1 ∉ accelDerivedNames) :=
  ⟨⟨rfl, by decide⟩,
   no_accel_channel_no_result (fun f p _ _ => (f, p)) (fun _ => 0) noAccelAnalyzer 4
     none none rfl (by decide)⟩

/-- C9: in the peak-window table every column, the synthesized Resultant
included, is labelled by the timestamp of the peak of its own channel
(so two channels peaking at different times carry different labels), and
the row index is the signed sample offsets -m ... m converted to elapsed
time through the sampling interval. -/
theorem peak_window_axis_labels (a : Analyzer) (m : Nat) (accel_ch : Channel)
    (hch : a.channels.lookup "acc" = some accel_ch)
    (hlen : a.accelerationData.length = accel_ch.axis_names.length) :
    ∃ tbl, make_peak_windows a m = some tbl ∧
      tbl.offsets = (intRangeIncl (-(m : Int)) m).map
        (fun o : Int => (1 / a.accelerationFs) * (o : ℚ)) ∧
      tbl.offsets.length = 2 * m + 1 ∧
      tbl.cols.length = accel_ch.axis_names.length + 1 ∧
      ∀ j, j < tbl.cols.length →
        tbl.cols[j]? = some
          { axis := (accel_ch.axis_names ++ ["Resultant"]).getD j ""
            peakTime := (a.times.map (fun x => x - a.firstTime))[argmaxAbs
              (((a.accelerationData ++ [a.accelerationResultant]).getD j []).map
                (fun x => a.MPS2_TO_G * x))]?
            window := peakWindowChannel m
              (((a.accelerationData ++ [a.accelerationResultant]).getD j []).map
                (fun x => a.MPS2_TO_G * x)) } := by
  have hdata : ((a.accelerationData ++ [a.accelerationResultant]).map
      (fun row => row.map (fun x => a.MPS2_TO_G * x))).length =
      accel_ch.axis_names.length + 1 := by
    rw [List.length_map, List.length_append, hlen]
    rfl
  have hnames : (accel_ch.axis_names ++ ["Resultant"]).length =
      accel_ch.axis_names.length + 1 := by
    rw [List.length_append]
    rfl
  unfold make_peak_windows
  rw [hch]
  refine ⟨_, rfl, rfl, ?_, ?_, ?_⟩
  · rw [List.length_map]
    unfold intRangeIncl
    rw [List.length_map, List.length_range]
    omega
  · rw [List.length_map, List.length_zip, hdata, hnames, Nat.min_self]
  · intro j hj
    rw [List.length_map, List.length_zip, hdata, hnames, Nat.min_self] at hj
    have hjz : j < ((accel_ch.axis_names ++ ["Resultant"]).zip
        ((a.accelerationData ++ [a.accelerationResultant]).map
          (fun row => row.map (fun x => a.MPS2_TO_G * x)))).length := by
      rw [List.length_zip, hdata, hnames, Nat.min_self]
      exact hj
    rw [List.getElem?_map, List.getElem?_eq_getElem hjz, Option.map_some',
      List.getElem_zip]
    have hjd : j < (a.accelerationData ++ [a.accelerationResultant]).length := by
      rw [List.length_append, hlen]
      simpa using hj
    have hjn : j < (accel_ch.axis_names ++ ["Resultant"]).length := by
      rw [hnames]
      exact hj
    congr 1
    have hrow : ((a.accelerationData ++ [a.accelerationResultant]).map
        (fun row => row.map (fun x => a.MPS2_TO_G * x)))[j] =
        ((a.accelerationData ++ [a.accelerationResultant]).getD j []).map
          (fun x => a.MPS2_TO_G * x) := by
      rw [List.getElem_map, List.getD_eq_getElem _ _ hjd]
    have hname : (accel_ch.axis_names ++ ["Resultant"])[j] =
        (accel_ch.axis_names ++ ["Resultant"]).getD j "" :=
      (List.getD_eq_getElem _ _ hjn).symm
    rw [hrow, hname]

/-- Witness for peak_window_axis_labels: the two axes of twoPeakAnalyzer
peak at samples 0 and 2, so their columns carry the distinct elapsed
peak times 50 and 250 microseconds. -/
theorem peak_window_axis_labels_witness :
    (twoPeakAnalyzer.channels.lookup "acc" =
      some { axis_names := ["X", "Y"] } ∧
     twoPeakAnalyzer.accelerationData.length =
      ({ axis_names := ["X", "Y"] } : Channel).axis_names.length) ∧
    (∃ tbl, make_peak_windows twoPeakAnalyzer 1 = some tbl ∧
      tbl.offsets = (intRangeIncl (-(1 : Int)) 1).map
        (fun o : Int => (1 / twoPeakAnalyzer.accelerationFs) * (o : ℚ)) ∧
      tbl.offsets.length = 2 * 1 + 1 ∧
      tbl.cols.length = ({ axis_names := ["X", "Y"] } : Channel).axis_names.length + 1 ∧
      ∀ j, j < tbl.cols.length →
        tbl.cols[j]? = some
          { axis := (({ axis_names := ["X", "Y"] } : Channel).axis_names ++
              ["Resultant"]).getD j ""
            peakTime := (twoPeakAnalyzer.times.map
              (fun x => x - twoPeakAnalyzer.firstTime))[argmaxAbs
                (((twoPeakAnalyzer.accelerationData ++
                  [twoPeakAnalyzer.accelerationResultant]).getD j []).map
                  (fun x => twoPeakAnalyzer.MPS2_TO_G * x))]?
            window := peakWindowChannel 1
              (((twoPeakAnalyzer.accelerationData ++
                [twoPeakAnalyzer.accelerationResultant]).getD j []).map
                (fun x => twoPeakAnalyzer.MPS2_TO_G * x)) }) :=
  ⟨⟨rfl, rfl⟩,
   peak_window_axis_labels twoPeakAnalyzer 1 { axis_names := ["X", "Y"] } rfl rfl⟩

/-! ### argmax lemmas -/

theorem argmaxAbsGo_spec : ∀ (l : List ℚ) (best : ℚ) (bi i : Nat),
    (argmaxAbsGo best bi i l = bi ∧ ∀ y ∈ l, |y| ≤ best) ∨
    (∃ j, j < l.length ∧ argmaxAbsGo best bi i l = i + j ∧ best ≤ |l.getD j 0| ∧
      ∀ y ∈ l, |y| ≤ |l.getD j 0|) := by
  intro l
  induction l with
  | nil =>
    intro best bi i
    left
    exact ⟨rfl, by simp⟩
  | cons y ys ih =>
    intro best bi i
    unfold argmaxAbsGo
    by_cases hy : |y| > best
    · rw [if_pos hy]
      rcases ih |y| i (i + 1) with ⟨heq, hall⟩ | ⟨j, hj, heq, hbest, hall⟩
      · right
        refine ⟨0, by simp, by rw [heq]; omega, ?_, ?_⟩
        · rw [List.getD_cons_zero]
          exact le_of_lt hy
        · intro z hz
          rw [List.getD_cons_zero]
          rcases List.mem_cons.mp hz with rfl | hz'
          · exact le_refl _
          · exact hall z hz'
      · right
        refine ⟨j + 1, by simpa using hj, by rw [heq]; omega, ?_, ?_⟩
        · rw [List.getD_cons_succ]
          exact le_trans (le_of_lt hy) hbest
        · intro z hz
          rw [List.getD_cons_succ]
          rcases List.mem_cons.mp hz with rfl | hz'
          · exact hbest
          · exact hall z hz'
    · rw [if_neg hy]
      rcases ih best bi (i + 1) with ⟨heq, hall⟩ | ⟨j, hj, heq, hbest, hall⟩
      · left
        refine ⟨heq, ?_⟩
        intro z hz
        rcases List.mem_cons.mp hz with rfl | hz'
        · exact le_of_not_lt hy
        · exact hall z hz'
      · right
        refine ⟨j + 1, by simpa using hj, by rw [heq]; omega, ?_, ?_⟩
        · rw [List.getD_cons_succ]
          exact hbest
        · intro z hz
          rw [List.getD_cons_succ]
          rcases List.mem_cons.mp hz with rfl | hz'
          · exact le_trans (le_of_not_lt hy) hbest
          · exact hall z hz'

theorem argmaxAbs_lt_length (xs : List ℚ) (h : xs ≠ []) : argmaxAbs xs < xs.length := by
  cases xs with
  | nil => exact absurd rfl h
  | cons x l =>
    show argmaxAbsGo |x| 0 1 l < (x :: l).length
    rcases argmaxAbsGo_spec l |x| 0 1 with ⟨heq, -⟩ | ⟨j, hj, heq, -, -⟩
    · rw [heq]
      simp
    · rw [heq, List.length_cons]
      omega

theorem argmaxAbs_max (xs : List ℚ) : ∀ y ∈ xs, |y| ≤ |xs.getD (argmaxAbs xs) 0| := by
  cases xs with
  | nil =>
    intro y hy
    cases hy
  | cons x l =>
    show ∀ y ∈ x :: l, |y| ≤ |(x :: l).getD (argmaxAbsGo |x| 0 1 l) 0|
    rcases argmaxAbsGo_spec l |x| 0 1 with ⟨heq, hall⟩ | ⟨j, hj, heq, hbest, hall⟩
    · rw [heq, List.getD_cons_zero]
      intro y hy
      rcases List.mem_cons.mp hy with rfl | hy'
      · exact le_refl _
      · exact hall y hy'
    · rw [heq, show 1 + j = j + 1 by omega, List.getD_cons_succ]
      intro y hy
      rcases List.mem_cons.mp hy with rfl | hy'
      · exact hbest
      · exact hall y hy'

/-- C1: for every half-width m and every non-empty channel signal, the
peak-window extraction succeeds (the slice assignment never fails), the
window has exactly 2m+1 offset rows, the maximum-absolute-value sample
sits non-sentinel at offset 0 (row m), and a row holds the sentinel
exactly when its offset falls outside the signal. -/
theorem peak_window_boundary (m : Nat) (xs : List ℚ) (hne : xs ≠ []) :
    ∃ r, peakWindowChannel m xs = some r ∧
      r.length = 2 * m + 1 ∧
      r[m]? = some (xs[argmaxAbs xs]?) ∧
      (xs[argmaxAbs xs]?).isSome = true ∧
      (∀ y ∈ xs, |y| ≤ |xs.getD (argmaxAbs xs) 0|) ∧
      ∀ i, i < 2 * m + 1 →
        r[i]? = some (if m ≤ i + argmaxAbs xs ∧ i + argmaxAbs xs < m + xs.length
          then xs[i + argmaxAbs xs - m]? else none) := by
  have hp : argmaxAbs xs < xs.length := argmaxAbs_lt_length xs hne
  have hds : pyIdx (2 * m + 1) (-(m : Int) - 1 - (argmaxAbs xs : Int)) =
      m - argmaxAbs xs := by
    simp only [pyIdx]
    split_ifs <;> omega
  have hde : pyIdx (2 * m + 1)
      ((m : Int) - ((argmaxAbs xs : Int) - (xs.length : Int))) =
      min (m + xs.length - argmaxAbs xs) (2 * m + 1) := by
    simp only [pyIdx]
    split_ifs <;> omega
  have hss : pyIdx xs.length ((argmaxAbs xs : Int) - (xs.length : Int) - (m : Int)) =
      argmaxAbs xs - m := by
    simp only [pyIdx]
    split_ifs <;> omega
  have hse : pyIdx xs.length ((argmaxAbs xs : Int) + (m : Int) + 1) =
      min (argmaxAbs xs + m + 1) xs.length := by
    simp only [pyIdx]
    split_ifs <;> omega
  have hsrclen : ((xs.drop (argmaxAbs xs - m)).take
      (min (argmaxAbs xs + m + 1) xs.length - (argmaxAbs xs - m))).length =
      min (argmaxAbs xs + m + 1) xs.length - (argmaxAbs xs - m) := by
    rw [List.length_take, List.length_drop]
    omega
  unfold peakWindowChannel pyGetSlice pySetSlice
  dsimp only
  rw [List.length_replicate, List.length_map, hds, hde, hss, hse, hsrclen]
  have hcond : min (argmaxAbs xs + m + 1) xs.length - (argmaxAbs xs - m) =
      min (m + xs.length - argmaxAbs xs) (2 * m + 1) - (m - argmaxAbs xs) := by
    omega
  rw [if_pos hcond, List.take_replicate, List.drop_replicate]
  have hmin1 : min (m - argmaxAbs xs) (2 * m + 1) = m - argmaxAbs xs := by
    omega
  rw [hmin1]
  have hget : ∀ i, i < 2 * m + 1 →
      ((List.replicate (m - argmaxAbs xs) (none : Option ℚ) ++
        ((xs.drop (argmaxAbs xs - m)).take
          (min (argmaxAbs xs + m + 1) xs.length - (argmaxAbs xs - m))).map some ++
        List.replicate (2 * m + 1 - (m - argmaxAbs xs +
          (min (m + xs.length - argmaxAbs xs) (2 * m + 1) - (m - argmaxAbs xs))))
          none)[i]?) =
      some (if m ≤ i + argmaxAbs xs ∧ i + argmaxAbs xs < m + xs.length
        then xs[i + argmaxAbs xs - m]? else none) := by
    intro i hi
    rw [List.getElem?_append, List.getElem?_append, List.length_append,
      List.length_replicate, List.length_map, hsrclen]
    by_cases h1 : i < m - argmaxAbs xs
    · rw [if_pos (by omega), if_pos h1, List.getElem?_replicate,
        if_pos (by omega : i < m - argmaxAbs xs), if_neg (by omega)]
    · by_cases h2 : i < m - argmaxAbs xs +
        (min (argmaxAbs xs + m + 1) xs.length - (argmaxAbs xs - m))
      · rw [if_pos h2, if_neg h1, List.getElem?_map, List.getElem?_take,
          if_pos (by omega), List.getElem?_drop]
        have hidx : argmaxAbs xs - m + (i - (m - argmaxAbs xs)) =
            i + argmaxAbs xs - m := by
          omega
        have hin : i + argmaxAbs xs - m < xs.length := by
          omega
        rw [hidx, if_pos (by omega), List.getElem?_eq_getElem hin, Option.map_some']
      · rw [if_neg h2, List.getElem?_replicate, if_pos (by omega), if_neg (by omega)]
  refine ⟨_, rfl, ?_, ?_, ?_, argmaxAbs_max xs, hget⟩
  · rw [List.length_append, List.length_append, List.length_replicate,
      List.length_map, hsrclen, List.length_replicate]
    omega
  · have hm := hget m (by omega)
    rw [hm, if_pos (by omega), show m + argmaxAbs xs - m = argmaxAbs xs by omega]
  · rw [List.getElem?_eq_getElem hp]
    rfl

/-- Witness for peak_window_boundary: half-width 2 on a 3-sample signal
whose peak (value -4) sits at index 1; both window edges are truncated
to the sentinel. -/
theorem peak_window_boundary_witness :
    (([1, -4, 3] : List ℚ) ≠ []) ∧
    peakWindowChannel 2 [1, -4, 3] = some [none, some 1, some (-4), some 3, none] ∧
    (∃ r, peakWindowChannel 2 [1, -4, 3] = some r ∧
      r.length = 2 * 2 + 1 ∧
      r[2]? = some (([1, -4, 3] : List ℚ)[argmaxAbs [1, -4, 3]]?) ∧
      (([1, -4, 3] : List ℚ)[argmaxAbs [1, -4, 3]]?).isSome = true ∧
      (∀ y ∈ ([1, -4, 3] : List ℚ), |y| ≤ |([1, -4, 3] : List ℚ).getD (argmaxAbs [1, -4, 3]) 0|) ∧
      ∀ i, i < 2 * 2 + 1 →
        r[i]? = some (if 2 ≤ i + argmaxAbs [1, -4, 3] ∧
            i + argmaxAbs [1, -4, 3] < 2 + ([1, -4, 3] : List ℚ).length
          then ([1, -4, 3] : List ℚ)[i + argmaxAbs [1, -4, 3] - 2]? else none)) :=
  ⟨by decide, by decide, peak_window_boundary 2 [1, -4, 3] (by decide)⟩

end EndaqBatch
